import Mathlib

/-!
Verification of the Sudoku difficulty-rating engine
(`difficulty_engine.py` + `solving_techniques.py` + `SUDOKU.py`).

The grid is embedded as a total map `Fin 9 → Fin 9 → Nat` (cell value 0
means empty).  The candidate dictionary `self.candidates` of
`SudokuTechniques` is embedded as `Fin 9 → Fin 9 → Option (Finset Nat)`:
`some s` for a key that is present (an empty cell), `none` for an absent
key, mirroring `(r, c) in self.candidates`.
-/

set_option maxRecDepth 4000

abbrev Grid := Fin 9 → Fin 9 → Nat

abbrev CandMap := Fin 9 → Fin 9 → Option (Finset Nat)

/-- Build a grid from a row-major list of lists (missing entries read 0). -/
def mkGrid (l : List (List Nat)) : Grid :=
  fun r c => (l.getD r.val []).getD c.val 0

/-- Some digit equal to `n` occurs in row `r` (`self.grid[row][c] == n` for some c;
the source only discards nonzero values, but discarding 0 from {1..9} is a no-op). -/
def rowHas (g : Grid) (r : Fin 9) (n : Nat) : Bool :=
  (List.finRange 9).any fun c => g r c == n

/-- Some digit equal to `n` occurs in column `c`. -/
def colHas (g : Grid) (c : Fin 9) (n : Nat) : Bool :=
  (List.finRange 9).any fun r => g r c == n

/-- Some digit equal to `n` occurs in the 3×3 box of cell `(r, c)`
(`box_row, box_col = (row // 3) * 3, (col // 3) * 3` in the source). -/
def boxHas (g : Grid) (r c : Fin 9) (n : Nat) : Bool :=
  (List.finRange 9).any fun r' => (List.finRange 9).any fun c' =>
    decide (r'.val / 3 = r.val / 3) && decide (c'.val / 3 = c.val / 3) && (g r' c' == n)

/-- `SudokuTechniques._get_candidates`: for an empty cell start from {1..9} and
remove every digit present in the cell's row, column or box; a filled cell
yields the empty set. -/
def get_candidates (g : Grid) (r c : Fin 9) : Finset Nat :=
  if g r c ≠ 0 then ∅
  else (Finset.Icc 1 9).filter fun n =>
    ¬ rowHas g r n ∧ ¬ colHas g c n ∧ ¬ boxHas g r c n

/-- `SudokuTechniques._init_candidates`: the candidate dict has a key exactly
for each empty cell, with value `_get_candidates`. -/
def init_candidates (g : Grid) : CandMap :=
  fun r c => if g r c = 0 then some (get_candidates g r c) else none

/-- `(r, c) in self.candidates and n in self.candidates[(r, c)]`. -/
def candHas (m : CandMap) (r c : Fin 9) (n : Nat) : Bool :=
  match m r c with
  | some s => decide (n ∈ s)
  | none => false

/-- `DifficultyEngine._is_solved`: no row contains a 0. -/
def is_solved (g : Grid) : Bool :=
  (List.finRange 9).all fun r => (List.finRange 9).all fun c => g r c != 0

/-- `working_board.grid[row][col] = num`. -/
def setCell (g : Grid) (r c : Fin 9) (n : Nat) : Grid :=
  fun r' c' => if r' = r ∧ c' = c then n else g r' c'

/-- Sequential assignment `for row, col, num in singles: grid[row][col] = num`. -/
def assignAll (g : Grid) (l : List (Fin 9 × Fin 9 × Nat)) : Grid :=
  l.foldl (fun g' t => setCell g' t.1 t.2.1 t.2.2) g

/-- The digits 1..9 in iteration order (`range(1, 10)` in the source). -/
def digitsList : List Nat := List.range' 1 9

/-- Row-major list of all 81 cells (`for row in range(9): for col in range(9)`). -/
def allCellsList : List (Fin 9 × Fin 9) :=
  (List.finRange 9).flatMap fun r => (List.finRange 9).map fun c => (r, c)

/-- The cells of box `b` in row-major order
(`box_row = (b // 3) * 3`, `box_col = (b % 3) * 3`). -/
def boxCellList (b : Fin 9) : List (Fin 9 × Fin 9) :=
  allCellsList.filter fun p => p.1.val / 3 = b.val / 3 ∧ p.2.val / 3 = b.val % 3

/-- All ordered pairs `(l[i], l[j])` with `i < j`, in source iteration order. -/
def listPairs : List α → List (α × α)
  | [] => []
  | x :: xs => (xs.map fun y => (x, y)) ++ listPairs xs

/-- All ordered triples `(l[i], l[j], l[k])` with `i < j < k`. -/
def listTriples : List α → List (α × α × α)
  | [] => []
  | x :: xs => ((listPairs xs).map fun q => (x, q.1, q.2)) ++ listTriples xs

/-- `list(cands)[0]` for a singleton candidate set: its unique element,
extracted as the minimum (sorting is irrelevant for one element). -/
def theSingle (s : Finset Nat) : Nat :=
  s.min.getD 0

/-- `tuple(sorted(s))` for a two-element candidate set: the source only
builds this tuple from sets of exactly two digits, for which the sorted
tuple is (min, max). -/
def sortedPairOf (s : Finset Nat) : Nat × Nat :=
  (s.min.getD 0, s.max.getD 0)

/-! ## Single-cell techniques -/

/-- `SudokuTechniques.find_naked_singles`: every dict entry whose candidate set
has exactly one element, in dict (row-major) order. -/
def find_naked_singles (m : CandMap) : List (Fin 9 × Fin 9 × Nat) :=
  (List.finRange 9).flatMap fun r => (List.finRange 9).filterMap fun c =>
    match m r c with
    | some s => if s.card = 1 then some (r, c, theSingle s) else none
    | none => none

/-- `SudokuTechniques._find_hidden_in_row`. -/
def find_hidden_in_row (g : Grid) (m : CandMap) (r : Fin 9) :
    List (Fin 9 × Fin 9 × Nat) :=
  digitsList.filterMap fun n =>
    if rowHas g r n then none
    else
      match (List.finRange 9).filter (fun c => candHas m r c n) with
      | [c] => some (r, c, n)
      | _ => none

/-- `SudokuTechniques._find_hidden_in_col`. -/
def find_hidden_in_col (g : Grid) (m : CandMap) (c : Fin 9) :
    List (Fin 9 × Fin 9 × Nat) :=
  digitsList.filterMap fun n =>
    if colHas g c n then none
    else
      match (List.finRange 9).filter (fun r => candHas m r c n) with
      | [r] => some (r, c, n)
      | _ => none

/-- `SudokuTechniques._find_hidden_in_box`. -/
def find_hidden_in_box (g : Grid) (m : CandMap) (b : Fin 9) :
    List (Fin 9 × Fin 9 × Nat) :=
  digitsList.filterMap fun n =>
    if (boxCellList b).any (fun p => g p.1 p.2 == n) then none
    else
      match (boxCellList b).filter (fun p => candHas m p.1 p.2 n) with
      | [p] => some (p.1, p.2, n)
      | _ => none

/-- `SudokuTechniques.find_hidden_singles`: rows, then columns, then boxes,
then de-duplicated (the source uses `list(set(results))`, whose order is an
implementation detail of Python's hash sets; the engine only consumes the
list as a set of assignments, so the embedding de-duplicates keeping the
last occurrence of each element). -/
def find_hidden_singles (g : Grid) (m : CandMap) : List (Fin 9 × Fin 9 × Nat) :=
  (((List.finRange 9).flatMap fun r => find_hidden_in_row g m r) ++
   ((List.finRange 9).flatMap fun c => find_hidden_in_col g m c) ++
   ((List.finRange 9).flatMap fun b => find_hidden_in_box g m b)).dedup

/-! ## Elimination machinery

Every applier in the source walks a sequence of `(cell, digit)` targets and,
whenever the digit is still a candidate of the cell, discards it and bumps
the `eliminated` counter.  The target sequence itself depends only on the
finding, the grid, and the candidate dict's *key set*, which is invariant
under discards (keys are only deleted in `update_candidates`, never called
by the engine). -/

/-- `self.candidates[(r, c)].discard(n)` (the key set is unchanged). -/
def eraseCand (m : CandMap) (r c : Fin 9) (n : Nat) : CandMap :=
  fun r' c' => if r' = r ∧ c' = c then (m r c).map (fun s => s.erase n) else m r' c'

/-- One `if num in self.candidates[cell]: discard; eliminated += 1` step. -/
def elimStep (st : CandMap × Nat) (t : Fin 9 × Fin 9 × Nat) : CandMap × Nat :=
  if candHas st.1 t.1 t.2.1 t.2.2 then (eraseCand st.1 t.1 t.2.1 t.2.2, st.2 + 1) else st

/-- Run a sequence of elimination attempts, returning the new candidate map and
the number of candidates actually removed. -/
def applyElims (ts : List (Fin 9 × Fin 9 × Nat)) (m : CandMap) : CandMap × Nat :=
  ts.foldl elimStep (m, 0)

/-- Process one finding: run its eliminations on the current map and add the
count to the running total. -/
def findStep (tf : CandMap → α → List (Fin 9 × Fin 9 × Nat))
    (st : CandMap × Nat) (f : α) : CandMap × Nat :=
  ((applyElims (tf st.1 f) st.1).1, st.2 + (applyElims (tf st.1 f) st.1).2)

/-- `for finding in findings: ...` — thread the candidate map through the
findings, accumulating the eliminated count. -/
def applyFindings (tf : CandMap → α → List (Fin 9 × Fin 9 × Nat))
    (m : CandMap) (fs : List α) : CandMap × Nat :=
  fs.foldl (findStep tf) (m, 0)

/-! ## Naked pairs -/

structure NPFinding where
  unitType : String
  unitIdx : Nat
  cells : List (Fin 9 × Fin 9)
  nums : Nat × Nat
deriving DecidableEq

/-- Bi-value cells of one row (`_find_pairs_in_row`, first loop). -/
def biValueInRow (m : CandMap) (r : Fin 9) : List ((Fin 9 × Fin 9) × Finset Nat) :=
  (List.finRange 9).filterMap fun c =>
    match m r c with
    | some s => if s.card = 2 then some ((r, c), s) else none
    | none => none

/-- Bi-value cells of one column. -/
def biValueInCol (m : CandMap) (c : Fin 9) : List ((Fin 9 × Fin 9) × Finset Nat) :=
  (List.finRange 9).filterMap fun r =>
    match m r c with
    | some s => if s.card = 2 then some ((r, c), s) else none
    | none => none

/-- Bi-value cells of one box. -/
def biValueInBox (m : CandMap) (b : Fin 9) : List ((Fin 9 × Fin 9) × Finset Nat) :=
  (boxCellList b).filterMap fun p =>
    match m p.1 p.2 with
    | some s => if s.card = 2 then some (p, s) else none
    | none => none

/-- Pairs `i < j` with identical candidate sets
(`if cell1[2] == cell2[2]` in the source). -/
def pairsFrom (unitType : String) (unitIdx : Nat)
    (bi : List ((Fin 9 × Fin 9) × Finset Nat)) : List NPFinding :=
  (listPairs bi).filterMap fun q =>
    if q.1.2 = q.2.2 then
      some ⟨unitType, unitIdx, [q.1.1, q.2.1], sortedPairOf q.1.2⟩
    else none

/-- `SudokuTechniques.find_naked_pairs`. -/
def find_naked_pairs (m : CandMap) : List NPFinding :=
  ((List.finRange 9).flatMap fun r => pairsFrom "row" r.val (biValueInRow m r)) ++
  ((List.finRange 9).flatMap fun c => pairsFrom "col" c.val (biValueInCol m c)) ++
  ((List.finRange 9).flatMap fun b => pairsFrom "box" b.val (biValueInBox m b))

/-- The unit cell list of a naked-pair finding, in source iteration order. -/
def npUnitCells (f : NPFinding) : List (Fin 9 × Fin 9) :=
  if f.unitType = "row" then
    (List.finRange 9).filterMap fun c =>
      if h : f.unitIdx < 9 then some (⟨f.unitIdx, h⟩, c) else none
  else if f.unitType = "col" then
    (List.finRange 9).filterMap fun r =>
      if h : f.unitIdx < 9 then some (r, ⟨f.unitIdx, h⟩) else none
  else if f.unitType = "box" then
    if h : f.unitIdx < 9 then boxCellList ⟨f.unitIdx, h⟩ else []
  else []

/-- Elimination targets of one naked-pair finding:
`if cell in self.candidates and cell not in cells: for num in nums: ...`. -/
def npTargets (m : CandMap) (f : NPFinding) : List (Fin 9 × Fin 9 × Nat) :=
  (npUnitCells f).flatMap fun p =>
    if (m p.1 p.2).isSome ∧ p ∉ f.cells then
      [(p.1, p.2, f.nums.1), (p.1, p.2, f.nums.2)]
    else []

/-- `SudokuTechniques.apply_naked_pairs`. -/
def apply_naked_pairs (m : CandMap) (fs : List NPFinding) : CandMap × Nat :=
  applyFindings npTargets m fs

/-! ## Pointing pairs -/

structure PPFinding where
  box : Fin 9
  num : Nat
  lineType : String
  lineIdx : Fin 9
  positions : List (Fin 9 × Fin 9)
deriving DecidableEq

/-- `SudokuTechniques.find_pointing_pairs`. -/
def find_pointing_pairs (m : CandMap) : List PPFinding :=
  (List.finRange 9).flatMap fun b =>
    digitsList.filterMap fun n =>
      let ps := (boxCellList b).filter fun p => candHas m p.1 p.2 n
      if ps.length < 2 then none
      else if (ps.map (fun p => p.1)).toFinset.card = 1 then
        some ⟨b, n, "row", (ps.headD (0, 0)).1, ps⟩
      else if (ps.map (fun p => p.2)).toFinset.card = 1 then
        some ⟨b, n, "col", (ps.headD (0, 0)).2, ps⟩
      else none

/-- Elimination targets of one pointing-pair finding: the digit is removed from
the line outside the box (`if not (box_row <= row < box_row + 3 and ...)`). -/
def ppTargets (_m : CandMap) (f : PPFinding) : List (Fin 9 × Fin 9 × Nat) :=
  let boxRow := (f.box.val / 3) * 3
  let boxCol := (f.box.val % 3) * 3
  if f.lineType = "row" then
    (List.finRange 9).filterMap fun c =>
      if ¬ (boxRow ≤ f.lineIdx.val ∧ f.lineIdx.val < boxRow + 3 ∧
            boxCol ≤ c.val ∧ c.val < boxCol + 3) then
        some (f.lineIdx, c, f.num)
      else none
  else
    (List.finRange 9).filterMap fun r =>
      if ¬ (boxRow ≤ r.val ∧ r.val < boxRow + 3 ∧
            boxCol ≤ f.lineIdx.val ∧ f.lineIdx.val < boxCol + 3) then
        some (r, f.lineIdx, f.num)
      else none

/-- `SudokuTechniques.apply_pointing_pairs`. -/
def apply_pointing_pairs (m : CandMap) (fs : List PPFinding) : CandMap × Nat :=
  applyFindings ppTargets m fs

/-! ## X-Wing -/

structure XWFinding where
  patternType : String
  lines : Fin 9 × Fin 9
  cross : Fin 9 × Fin 9
  num : Nat
deriving DecidableEq

/-- The columns (in increasing order) in which `n` is a candidate of row `r`. -/
def rowPositionsFor (m : CandMap) (n : Nat) (r : Fin 9) : List (Fin 9) :=
  (List.finRange 9).filter fun c => candHas m r c n

/-- The rows (in increasing order) in which `n` is a candidate of column `c`. -/
def colPositionsFor (m : CandMap) (n : Nat) (c : Fin 9) : List (Fin 9) :=
  (List.finRange 9).filter fun r => candHas m r c n

/-- `[a, b] ↦ (a, b)` (the length-2 position tuple of the source). -/
def pairFromList (l : List (Fin 9)) : Fin 9 × Fin 9 :=
  match l with
  | [a, b] => (a, b)
  | _ => (0, 0)

/-- `SudokuTechniques._find_x_wing_in_rows`. -/
def find_x_wing_in_rows (m : CandMap) (n : Nat) : List XWFinding :=
  let rcs := (List.finRange 9).filterMap fun r =>
    let ps := rowPositionsFor m n r
    if ps.length = 2 then some (r, ps) else none
  (listPairs rcs).filterMap fun q =>
    if q.1.2 = q.2.2 then
      some ⟨"rows", (q.1.1, q.2.1), pairFromList q.1.2, n⟩
    else none

/-- `SudokuTechniques._find_x_wing_in_cols`. -/
def find_x_wing_in_cols (m : CandMap) (n : Nat) : List XWFinding :=
  let ccs := (List.finRange 9).filterMap fun c =>
    let ps := colPositionsFor m n c
    if ps.length = 2 then some (c, ps) else none
  (listPairs ccs).filterMap fun q =>
    if q.1.2 = q.2.2 then
      some ⟨"cols", (q.1.1, q.2.1), pairFromList q.1.2, n⟩
    else none

/-- `SudokuTechniques.find_x_wing`: all row patterns for digits 1..9, then all
column patterns. -/
def find_x_wing (m : CandMap) : List XWFinding :=
  (digitsList.flatMap fun n => find_x_wing_in_rows m n) ++
  (digitsList.flatMap fun n => find_x_wing_in_cols m n)

/-- The cells an X-Wing finding eliminates at, in source iteration order:
for each line not part of the pattern, the two crossing cells. -/
def xwCellList (f : XWFinding) : List (Fin 9 × Fin 9) :=
  if f.patternType = "rows" then
    (List.finRange 9).flatMap fun r =>
      if r ≠ f.lines.1 ∧ r ≠ f.lines.2 then [(r, f.cross.1), (r, f.cross.2)] else []
  else
    (List.finRange 9).flatMap fun c =>
      if c ≠ f.lines.1 ∧ c ≠ f.lines.2 then [(f.cross.1, c), (f.cross.2, c)] else []

/-- Elimination targets of one X-Wing finding: its cells, each for the digit. -/
def xwTargets (_m : CandMap) (f : XWFinding) : List (Fin 9 × Fin 9 × Nat) :=
  (xwCellList f).map fun p => (p.1, p.2, f.num)

/-- `SudokuTechniques.apply_x_wing`. -/
def apply_x_wing (m : CandMap) (fs : List XWFinding) : CandMap × Nat :=
  applyFindings xwTargets m fs

/-! ## Swordfish -/

structure SFFinding where
  patternType : String
  lines : Fin 9 × Fin 9 × Fin 9
  cross : Fin 9 × Fin 9 × Fin 9
  num : Nat
deriving DecidableEq

/-- `tuple(sorted(s))` for a three-element set of line indices: the source
only builds this tuple from unions of exactly three lines, for which the
sorted tuple is (min, middle, max). -/
def sortedTripleOf (s : Finset (Fin 9)) : Fin 9 × Fin 9 × Fin 9 :=
  (s.min.getD 0, ((s.erase (s.min.getD 0)).min.getD 0, s.max.getD 0))

/-- `SudokuTechniques._find_swordfish_in_rows`. -/
def find_swordfish_in_rows (m : CandMap) (n : Nat) : List SFFinding :=
  let rcs := (List.finRange 9).filterMap fun r =>
    let ps := rowPositionsFor m n r
    if 2 ≤ ps.length ∧ ps.length ≤ 3 then some (r, ps.toFinset) else none
  (listTriples rcs).filterMap fun q =>
    let u := q.1.2 ∪ q.2.1.2 ∪ q.2.2.2
    if u.card = 3 then
      some ⟨"rows", (q.1.1, q.2.1.1, q.2.2.1), sortedTripleOf u, n⟩
    else none

/-- `SudokuTechniques._find_swordfish_in_cols`. -/
def find_swordfish_in_cols (m : CandMap) (n : Nat) : List SFFinding :=
  let ccs := (List.finRange 9).filterMap fun c =>
    let ps := colPositionsFor m n c
    if 2 ≤ ps.length ∧ ps.length ≤ 3 then some (c, ps.toFinset) else none
  (listTriples ccs).filterMap fun q =>
    let u := q.1.2 ∪ q.2.1.2 ∪ q.2.2.2
    if u.card = 3 then
      some ⟨"cols", (q.1.1, q.2.1.1, q.2.2.1), sortedTripleOf u, n⟩
    else none

/-- `SudokuTechniques.find_swordfish`. -/
def find_swordfish (m : CandMap) : List SFFinding :=
  (digitsList.flatMap fun n => find_swordfish_in_rows m n) ++
  (digitsList.flatMap fun n => find_swordfish_in_cols m n)

/-- Elimination targets of one Swordfish finding
(`for col in cols: for row in range(9): if row not in rows: ...`). -/
def sfTargets (_m : CandMap) (f : SFFinding) : List (Fin 9 × Fin 9 × Nat) :=
  if f.patternType = "rows" then
    [f.cross.1, f.cross.2.1, f.cross.2.2].flatMap fun c =>
      (List.finRange 9).filterMap fun r =>
        if r ≠ f.lines.1 ∧ r ≠ f.lines.2.1 ∧ r ≠ f.lines.2.2 then
          some (r, c, f.num)
        else none
  else
    [f.cross.1, f.cross.2.1, f.cross.2.2].flatMap fun r =>
      (List.finRange 9).filterMap fun c =>
        if c ≠ f.lines.1 ∧ c ≠ f.lines.2.1 ∧ c ≠ f.lines.2.2 then
          some (r, c, f.num)
        else none

/-- `SudokuTechniques.apply_swordfish`. -/
def apply_swordfish (m : CandMap) (fs : List SFFinding) : CandMap × Nat :=
  applyFindings sfTargets m fs

/-! ## XY-Wing -/

structure XYFinding where
  pivot : Fin 9 × Fin 9
  wing1 : Fin 9 × Fin 9
  wing2 : Fin 9 × Fin 9
  z : Nat
deriving DecidableEq

/-- `SudokuTechniques._can_see`: same row, same column, or same 3×3 box. -/
def can_see (r1 c1 r2 c2 : Fin 9) : Bool :=
  if r1 = r2 then true
  else if c1 = c2 then true
  else if r1.val / 3 = r2.val / 3 ∧ c1.val / 3 = c2.val / 3 then true
  else false

/-- One bi-value cell record `(row, col, tuple(sorted(cands)))`. -/
def biEntry (m : CandMap) (r c : Fin 9) : Option ((Fin 9 × Fin 9) × Nat × Nat) :=
  match m r c with
  | some s => if s.card = 2 then some ((r, c), sortedPairOf s) else none
  | none => none

/-- All bi-value cells in row-major order (`find_xy_wing`, step 1). -/
def biValueCells (m : CandMap) : List ((Fin 9 × Fin 9) × Nat × Nat) :=
  (List.finRange 9).flatMap fun r => (List.finRange 9).filterMap fun c => biEntry m r c

/-- `SudokuTechniques.find_xy_wing`. -/
def find_xy_wing (m : CandMap) : List XYFinding :=
  let bi := biValueCells m
  bi.flatMap fun pv =>
    bi.flatMap fun w1 =>
      if w1.1 ≠ pv.1 ∧ can_see pv.1.1 pv.1.2 w1.1.1 w1.1.2 ∧
         (pv.2.1 = w1.2.1 ∨ pv.2.1 = w1.2.2) then
        let z := if w1.2.1 ≠ pv.2.1 then w1.2.1 else w1.2.2
        bi.filterMap fun w2 =>
          if w2.1 ≠ pv.1 ∧ w2.1 ≠ w1.1 ∧ can_see pv.1.1 pv.1.2 w2.1.1 w2.1.2 ∧
             ({w2.2.1, w2.2.2} : Finset Nat) = {pv.2.2, z} then
            some ⟨pv.1, w1.1, w2.1, z⟩
          else none
      else []

/-- The cells an XY-Wing finding eliminates at: every cell with a candidate
entry, other than pivot and wings, that sees both wings. -/
def xyCellList (m : CandMap) (f : XYFinding) : List (Fin 9 × Fin 9) :=
  allCellsList.filter fun p =>
    p ∉ [f.pivot, f.wing1, f.wing2] ∧ (m p.1 p.2).isSome ∧
    can_see p.1 p.2 f.wing1.1 f.wing1.2 ∧ can_see p.1 p.2 f.wing2.1 f.wing2.2

/-- Elimination targets of one XY-Wing finding: its cells, each for `z`. -/
def xyTargets (m : CandMap) (f : XYFinding) : List (Fin 9 × Fin 9 × Nat) :=
  (xyCellList m f).map fun p => (p.1, p.2, f.z)

/-- `SudokuTechniques.apply_xy_wing`. -/
def apply_xy_wing (m : CandMap) (fs : List XYFinding) : CandMap × Nat :=
  applyFindings xyTargets m fs

/-! ## The difficulty engine -/

/-- `DifficultyEngine.TECHNIQUE_SCORES`. -/
def TECHNIQUE_SCORES : String → Nat
  | "naked_single" => 15
  | "hidden_single" => 15
  | "naked_pair" => 65
  | "hidden_pair" => 70
  | "pointing_pair" => 80
  | "x_wing" => 120
  | "swordfish" => 160
  | "xy_wing" => 180
  | _ => 0

inductive StepRes where
  | applied (g : Grid) (tag : String)
  | stuck
deriving DecidableEq

/-- Stage 7 of the technique chain (`# 7. 嘗試 XY-Wing`): the walrus guard
`if xy_wing := tech.find_xy_wing()` calls the applier only on a non-empty
finding list; if nothing is eliminated, no technique applied at all. -/
def stepXY (g : Grid) (m : CandMap) : StepRes :=
  let xys := find_xy_wing m
  let rXY := if xys = [] then (m, 0) else apply_xy_wing m xys
  if rXY.2 > 0 then .applied g "xy_wing" else .stuck

/-- Stage 6 (`# 6. 嘗試 Swordfish`); on a zero-elimination fall-through the
(mutated) candidate dict of the tech object is passed on. -/
def stepSF (g : Grid) (m : CandMap) : StepRes :=
  let sfs := find_swordfish m
  let rSF := if sfs = [] then (m, 0) else apply_swordfish m sfs
  if rSF.2 > 0 then .applied g "swordfish" else stepXY g rSF.1

/-- Stage 5 (`# 5. 嘗試 X-Wing`). -/
def stepXW (g : Grid) (m : CandMap) : StepRes :=
  let xws := find_x_wing m
  let rXW := if xws = [] then (m, 0) else apply_x_wing m xws
  if rXW.2 > 0 then .applied g "x_wing" else stepSF g rXW.1

/-- Stage 4 (`# 4. 嘗試 Pointing Pairs`). -/
def stepPT (g : Grid) (m : CandMap) : StepRes :=
  let pts := find_pointing_pairs m
  let rPT := if pts = [] then (m, 0) else apply_pointing_pairs m pts
  if rPT.2 > 0 then .applied g "pointing_pair" else stepXW g rPT.1

/-- Stage 3 (`# 3. 嘗試 Naked Pairs`). -/
def stepNP (g : Grid) (m : CandMap) : StepRes :=
  let prs := find_naked_pairs m
  let rNP := if prs = [] then (m, 0) else apply_naked_pairs m prs
  if rNP.2 > 0 then .applied g "naked_pair" else stepPT g rNP.1

/-- Stage 2 (`# 2. 嘗試 Hidden Singles`). -/
def stepHS (g : Grid) (m : CandMap) : StepRes :=
  let hidden := find_hidden_singles g m
  if hidden ≠ [] then .applied (assignAll g hidden) "hidden_single" else stepNP g m

/-- The technique chain of one `while`-loop iteration of `rate_puzzle`, given
the freshly built candidate dict of `SudokuTechniques(working_board)`: try the
seven techniques in source order and report either the applied technique (with
the updated grid) or that no technique had any effect. -/
def stepAux (g : Grid) (cands : CandMap) : StepRes :=
  let singles := find_naked_singles cands
  if singles ≠ [] then .applied (assignAll g singles) "naked_single" else stepHS g cands

/-- One iteration of the `while` loop body of `rate_puzzle` (after the guard):
`tech = SudokuTechniques(working_board)` rebuilds the candidate dict from the
current grid, then the technique chain runs. -/
def stepCode (g : Grid) : StepRes :=
  stepAux g (init_candidates g)

/-- The `while not self._is_solved(...) and iteration < max_iterations` loop of
`rate_puzzle`, with the remaining iteration budget as fuel. -/
def rateLoop : Nat → Grid → Nat → List String → Grid × Nat × List String
  | 0, g, score, techs => (g, score, techs)
  | fuel + 1, g, score, techs =>
    if is_solved g then (g, score, techs)
    else
      match stepCode g with
      | .applied g' tag => rateLoop fuel g' (max score (TECHNIQUE_SCORES tag)) (techs ++ [tag])
      | .stuck => (g, max score 200, techs ++ ["requires_expert_technique"])

/-- The final difficulty classification of `rate_puzzle`. -/
def labelOf (s : Nat) : String :=
  if s ≤ 15 then "Easy" else if s ≤ 90 then "Medium" else "Hard"

/-- `DifficultyEngine.rate_puzzle` on a grid: run the loop with the
iteration budget `max_iterations = 1000`, classify the final `max_score`,
and return `(difficulty, max_score, techniques_used)`. -/
def rate_puzzle (g : Grid) : String × Nat × List String :=
  (labelOf (rateLoop 1000 g 0 []).2.1,
   (rateLoop 1000 g 0 []).2.1,
   (rateLoop 1000 g 0 []).2.2)

/-! ## Concrete boards used in the development -/

/-- The all-empty grid. -/
def emptyGrid : Grid := mkGrid []

/-- A valid board on which the engine cycles forever on `pointing_pair`:
box 0 confines the candidates of digits 1, 8, 9 to row 0, so the pointing-pair
eliminations succeed every iteration, but no technique ever changes the grid. -/
def cycleGrid : Grid := mkGrid [
  [0, 0, 0, 0, 0, 0, 0, 0, 0],
  [2, 3, 4, 0, 0, 0, 0, 0, 0],
  [5, 6, 7, 0, 0, 0, 0, 0, 0],
  [0, 0, 0, 0, 0, 0, 0, 0, 0],
  [0, 0, 0, 0, 0, 0, 0, 0, 0],
  [0, 0, 0, 0, 0, 0, 0, 0, 0],
  [0, 0, 0, 0, 0, 0, 0, 0, 0],
  [0, 0, 0, 0, 0, 0, 0, 0, 0],
  [0, 0, 0, 0, 0, 0, 0, 0, 0]]

/-- A full 9×9 grid of fives: in-range digits, but massively violating the
row/column/box uniqueness invariant. -/
def allFives : Grid := fun _ _ => 5

/-- A valid, completely solved grid (the completion of the `easy_puzzle` board
of `test_difficulty_engine.py`). -/
def solvedGrid : Grid := mkGrid [
  [5, 3, 4, 6, 7, 8, 9, 1, 2],
  [6, 7, 2, 1, 9, 5, 3, 4, 8],
  [1, 9, 8, 3, 4, 2, 5, 6, 7],
  [8, 5, 9, 7, 6, 1, 4, 2, 3],
  [4, 2, 6, 8, 5, 3, 7, 9, 1],
  [7, 1, 3, 9, 2, 4, 8, 5, 6],
  [9, 6, 1, 5, 3, 7, 2, 8, 4],
  [2, 8, 7, 4, 1, 9, 6, 3, 5],
  [3, 4, 5, 2, 8, 6, 1, 7, 9]]

/-- Build a candidate map from a grid and a row-major table of candidate
lists (used to state precomputed candidate maps of concrete grids). -/
def mkCandMap (g : Grid) (l : List (List (List Nat))) : CandMap :=
  fun r c => if g r c = 0 then some ((l.getD r.val []).getD c.val []).toFinset else none

/-- The candidate map of the empty grid: every cell is empty with all of
{1..9} possible. -/
def emptyCands : CandMap := fun _ _ => some (Finset.Icc 1 9)

/-- The candidate map of `cycleGrid`, as a literal table. -/
def cycleCands : CandMap := mkCandMap cycleGrid [
  [[1, 8, 9], [1, 8, 9], [1, 8, 9], [1, 2, 3, 4, 5, 6, 7, 8, 9], [1, 2, 3, 4, 5, 6, 7, 8, 9],
   [1, 2, 3, 4, 5, 6, 7, 8, 9], [1, 2, 3, 4, 5, 6, 7, 8, 9], [1, 2, 3, 4, 5, 6, 7, 8, 9],
   [1, 2, 3, 4, 5, 6, 7, 8, 9]],
  [[], [], [], [1, 5, 6, 7, 8, 9], [1, 5, 6, 7, 8, 9], [1, 5, 6, 7, 8, 9], [1, 5, 6, 7, 8, 9],
   [1, 5, 6, 7, 8, 9], [1, 5, 6, 7, 8, 9]],
  [[], [], [], [1, 2, 3, 4, 8, 9], [1, 2, 3, 4, 8, 9], [1, 2, 3, 4, 8, 9], [1, 2, 3, 4, 8, 9],
   [1, 2, 3, 4, 8, 9], [1, 2, 3, 4, 8, 9]],
  [[1, 3, 4, 6, 7, 8, 9], [1, 2, 4, 5, 7, 8, 9], [1, 2, 3, 5, 6, 8, 9], [1, 2, 3, 4, 5, 6, 7, 8, 9],
   [1, 2, 3, 4, 5, 6, 7, 8, 9], [1, 2, 3, 4, 5, 6, 7, 8, 9], [1, 2, 3, 4, 5, 6, 7, 8, 9],
   [1, 2, 3, 4, 5, 6, 7, 8, 9], [1, 2, 3, 4, 5, 6, 7, 8, 9]],
  [[1, 3, 4, 6, 7, 8, 9], [1, 2, 4, 5, 7, 8, 9], [1, 2, 3, 5, 6, 8, 9], [1, 2, 3, 4, 5, 6, 7, 8, 9],
   [1, 2, 3, 4, 5, 6, 7, 8, 9], [1, 2, 3, 4, 5, 6, 7, 8, 9], [1, 2, 3, 4, 5, 6, 7, 8, 9],
   [1, 2, 3, 4, 5, 6, 7, 8, 9], [1, 2, 3, 4, 5, 6, 7, 8, 9]],
  [[1, 3, 4, 6, 7, 8, 9], [1, 2, 4, 5, 7, 8, 9], [1, 2, 3, 5, 6, 8, 9], [1, 2, 3, 4, 5, 6, 7, 8, 9],
   [1, 2, 3, 4, 5, 6, 7, 8, 9], [1, 2, 3, 4, 5, 6, 7, 8, 9], [1, 2, 3, 4, 5, 6, 7, 8, 9],
   [1, 2, 3, 4, 5, 6, 7, 8, 9], [1, 2, 3, 4, 5, 6, 7, 8, 9]],
  [[1, 3, 4, 6, 7, 8, 9], [1, 2, 4, 5, 7, 8, 9], [1, 2, 3, 5, 6, 8, 9], [1, 2, 3, 4, 5, 6, 7, 8, 9],
   [1, 2, 3, 4, 5, 6, 7, 8, 9], [1, 2, 3, 4, 5, 6, 7, 8, 9], [1, 2, 3, 4, 5, 6, 7, 8, 9],
   [1, 2, 3, 4, 5, 6, 7, 8, 9], [1, 2, 3, 4, 5, 6, 7, 8, 9]],
  [[1, 3, 4, 6, 7, 8, 9], [1, 2, 4, 5, 7, 8, 9], [1, 2, 3, 5, 6, 8, 9], [1, 2, 3, 4, 5, 6, 7, 8, 9],
   [1, 2, 3, 4, 5, 6, 7, 8, 9], [1, 2, 3, 4, 5, 6, 7, 8, 9], [1, 2, 3, 4, 5, 6, 7, 8, 9],
   [1, 2, 3, 4, 5, 6, 7, 8, 9], [1, 2, 3, 4, 5, 6, 7, 8, 9]],
  [[1, 3, 4, 6, 7, 8, 9], [1, 2, 4, 5, 7, 8, 9], [1, 2, 3, 5, 6, 8, 9], [1, 2, 3, 4, 5, 6, 7, 8, 9],
   [1, 2, 3, 4, 5, 6, 7, 8, 9], [1, 2, 3, 4, 5, 6, 7, 8, 9], [1, 2, 3, 4, 5, 6, 7, 8, 9],
   [1, 2, 3, 4, 5, 6, 7, 8, 9], [1, 2, 3, 4, 5, 6, 7, 8, 9]]]

/-! ## Board values and the call boundary -/

/-- `SudokuBoard`: a grid plus the `size` field (always 9). -/
structure Board where
  grid : Grid
  size : Nat
deriving DecidableEq

/-- `copy.deepcopy` of a grid: an independent value copy. -/
def deepcopyGrid (g : Grid) : Grid := fun r c => g r c

/-- `copy.deepcopy` of a board. -/
def deepcopyBoard (b : Board) : Board := ⟨deepcopyGrid b.grid, b.size⟩

/-- The mutable state of one `rate_puzzle` call: the caller's grid and the
engine's working grid (`working_board = copy.deepcopy(board)`); every
assignment inside the loop hits only the working grid. -/
def rateLoopH : Nat → Grid × Grid → Nat → List String → (Grid × Grid) × Nat × List String
  | 0, st, score, techs => (st, score, techs)
  | fuel + 1, st, score, techs =>
    if is_solved st.2 then (st, score, techs)
    else
      match stepCode st.2 with
      | .applied g' tag =>
        rateLoopH fuel (st.1, g') (max score (TECHNIQUE_SCORES tag)) (techs ++ [tag])
      | .stuck => (st, max score 200, techs ++ ["requires_expert_technique"])

/-- `DifficultyEngine.rate_puzzle` at the call boundary: the result together
with the caller's board as it stands after the call. -/
def rate_puzzle_call (b : Board) : (String × Nat × List String) × Board :=
  ((labelOf (rateLoopH 1000 (b.grid, deepcopyGrid b.grid) 0 []).2.1,
    (rateLoopH 1000 (b.grid, deepcopyGrid b.grid) 0 []).2.1,
    (rateLoopH 1000 (b.grid, deepcopyGrid b.grid) 0 []).2.2),
   ⟨(rateLoopH 1000 (b.grid, deepcopyGrid b.grid) 0 []).1.1, b.size⟩)

/-- Modelled from the spec: the board validity precondition of §7 — a 9×9
grid (enforced by the `Grid` type), every digit in 0..9, and no repeated
nonzero digit in any row, column, or 3×3 box.  The repository has no such
validator (`SudokuBoard.is_valid` checks a prospective move, not the board),
so the precondition is stated from the spec's words. -/
def isValidGrid (g : Grid) : Bool :=
  ((List.finRange 9).all fun r => (List.finRange 9).all fun c => decide (g r c ≤ 9)) &&
  ((List.finRange 9).all fun r => (listPairs (List.finRange 9)).all fun q =>
    (g r q.1 == 0) || (g r q.1 != g r q.2)) &&
  ((List.finRange 9).all fun c => (listPairs (List.finRange 9)).all fun q =>
    (g q.1 c == 0) || (g q.1 c != g q.2 c)) &&
  ((List.finRange 9).all fun b => (listPairs (boxCellList b)).all fun q =>
    (g q.1.1 q.1.2 == 0) || (g q.1.1 q.1.2 != g q.2.1 q.2.2))

/-- The difficulty classification exactly as the spec words it:
≤ 15 Easy, 15 < · ≤ 90 Medium, > 90 Hard. -/
def labelSpec (s : Nat) : String :=
  if s ≤ 15 then "Easy" else if 15 < s ∧ s ≤ 90 then "Medium" else "Hard"

/-! ## General facts about the engine loop -/

theorem rateLoop_succ (n : Nat) (g : Grid) (s : Nat) (t : List String) :
    rateLoop (n + 1) g s t =
      if is_solved g then (g, s, t)
      else
        match stepCode g with
        | .applied g' tag => rateLoop n g' (max s (TECHNIQUE_SCORES tag)) (t ++ [tag])
        | .stuck => (g, max s 200, t ++ ["requires_expert_technique"]) := rfl

theorem rateLoop_solved (n : Nat) (g : Grid) (s : Nat) (t : List String)
    (h : is_solved g = true) : rateLoop n g s t = (g, s, t) := by
  cases n <;> simp [rateLoop, h]

/-- If one engine step applies technique `tag` without changing the grid, the
loop repeats it verbatim until the fuel runs out. -/
theorem rateLoop_cycle (g : Grid) (tag : String)
    (hs : is_solved g = false) (hstep : stepCode g = .applied g tag) :
    ∀ (n s : Nat) (t : List String), 0 < n →
      rateLoop n g s t = (g, max s (TECHNIQUE_SCORES tag), t ++ List.replicate n tag) := by
  intro n
  induction n with
  | zero => intro s t h; omega
  | succ k ih =>
    intro s t _
    rw [rateLoop_succ, hs]
    simp only [Bool.false_eq_true, if_false, hstep]
    rcases Nat.eq_zero_or_pos k with hk | hk
    · subst hk
      simp [rateLoop]
    · rw [ih _ _ hk]
      rw [max_assoc, max_self, List.append_assoc, List.singleton_append,
        ← List.replicate_succ]

/-- The `if findings := detect(): apply` walrus guard of each elimination stage
is value-irrelevant: applying an empty finding list eliminates nothing. -/
theorem stepXY_eq (g : Grid) (m : CandMap) :
    stepXY g m =
      if (apply_xy_wing m (find_xy_wing m)).2 > 0 then .applied g "xy_wing"
      else .stuck := by
  unfold stepXY
  dsimp only
  by_cases he : find_xy_wing m = []
  · rw [he]
    rfl
  · rw [if_neg he]

theorem stepSF_eq (g : Grid) (m : CandMap) :
    stepSF g m =
      if (apply_swordfish m (find_swordfish m)).2 > 0 then .applied g "swordfish"
      else stepXY g (apply_swordfish m (find_swordfish m)).1 := by
  unfold stepSF
  dsimp only
  by_cases he : find_swordfish m = []
  · rw [he]
    rfl
  · rw [if_neg he]

theorem stepXW_eq (g : Grid) (m : CandMap) :
    stepXW g m =
      if (apply_x_wing m (find_x_wing m)).2 > 0 then .applied g "x_wing"
      else stepSF g (apply_x_wing m (find_x_wing m)).1 := by
  unfold stepXW
  dsimp only
  by_cases he : find_x_wing m = []
  · rw [he]
    rfl
  · rw [if_neg he]

theorem stepPT_eq (g : Grid) (m : CandMap) :
    stepPT g m =
      if (apply_pointing_pairs m (find_pointing_pairs m)).2 > 0 then
        .applied g "pointing_pair"
      else stepXW g (apply_pointing_pairs m (find_pointing_pairs m)).1 := by
  unfold stepPT
  dsimp only
  by_cases he : find_pointing_pairs m = []
  · rw [he]
    rfl
  · rw [if_neg he]

theorem stepNP_eq (g : Grid) (m : CandMap) :
    stepNP g m =
      if (apply_naked_pairs m (find_naked_pairs m)).2 > 0 then .applied g "naked_pair"
      else stepPT g (apply_naked_pairs m (find_naked_pairs m)).1 := by
  unfold stepNP
  dsimp only
  by_cases he : find_naked_pairs m = []
  · rw [he]
    rfl
  · rw [if_neg he]

theorem stepXY_tag (g : Grid) (m : CandMap) (g' : Grid) (tag : String)
    (h : stepXY g m = .applied g' tag) : tag ∈ ["xy_wing"] := by
  rw [stepXY_eq] at h
  split at h
  · cases h; simp
  · cases h

theorem stepSF_tag (g : Grid) (m : CandMap) (g' : Grid) (tag : String)
    (h : stepSF g m = .applied g' tag) : tag ∈ ["swordfish", "xy_wing"] := by
  rw [stepSF_eq] at h
  split at h
  · cases h; simp
  · exact List.mem_cons_of_mem _ (stepXY_tag _ _ _ _ h)

theorem stepXW_tag (g : Grid) (m : CandMap) (g' : Grid) (tag : String)
    (h : stepXW g m = .applied g' tag) : tag ∈ ["x_wing", "swordfish", "xy_wing"] := by
  rw [stepXW_eq] at h
  split at h
  · cases h; simp
  · exact List.mem_cons_of_mem _ (stepSF_tag _ _ _ _ h)

theorem stepPT_tag (g : Grid) (m : CandMap) (g' : Grid) (tag : String)
    (h : stepPT g m = .applied g' tag) :
    tag ∈ ["pointing_pair", "x_wing", "swordfish", "xy_wing"] := by
  rw [stepPT_eq] at h
  split at h
  · cases h; simp
  · exact List.mem_cons_of_mem _ (stepXW_tag _ _ _ _ h)

theorem stepNP_tag (g : Grid) (m : CandMap) (g' : Grid) (tag : String)
    (h : stepNP g m = .applied g' tag) :
    tag ∈ ["naked_pair", "pointing_pair", "x_wing", "swordfish", "xy_wing"] := by
  rw [stepNP_eq] at h
  split at h
  · cases h; simp
  · exact List.mem_cons_of_mem _ (stepPT_tag _ _ _ _ h)

theorem stepHS_tag (g : Grid) (m : CandMap) (g' : Grid) (tag : String)
    (h : stepHS g m = .applied g' tag) :
    tag ∈ ["hidden_single", "naked_pair", "pointing_pair", "x_wing", "swordfish",
      "xy_wing"] := by
  unfold stepHS at h
  dsimp only at h
  split at h
  · cases h; simp
  · exact List.mem_cons_of_mem _ (stepNP_tag _ _ _ _ h)

/-- Every tag an applied step reports is one of the seven technique names. -/
theorem stepAux_tag (g : Grid) (m : CandMap) (g' : Grid) (tag : String)
    (h : stepAux g m = .applied g' tag) :
    tag ∈ ["naked_single", "hidden_single", "naked_pair", "pointing_pair", "x_wing",
      "swordfish", "xy_wing"] := by
  unfold stepAux at h
  dsimp only at h
  split at h
  · cases h; simp
  · exact List.mem_cons_of_mem _ (stepHS_tag _ _ _ _ h)

/-- The expert sentinel is never the tag of an applied step. -/
theorem stepCode_tag (g g' : Grid) (tag : String)
    (h : stepCode g = .applied g' tag) : tag ≠ "requires_expert_technique" := by
  have hmem := stepAux_tag g (init_candidates g) g' tag h
  simp only [List.mem_cons, List.not_mem_nil, or_false] at hmem
  rcases hmem with rfl | rfl | rfl | rfl | rfl | rfl | rfl <;> decide

/-- The loop's score only grows, and the expert sentinel is recorded only
together with a score of at least 200. -/
theorem rateLoop_expert (n : Nat) : ∀ (g : Grid) (s : Nat) (t : List String),
    s ≤ (rateLoop n g s t).2.1 ∧
    ("requires_expert_technique" ∈ (rateLoop n g s t).2.2 →
      "requires_expert_technique" ∈ t ∨ 200 ≤ (rateLoop n g s t).2.1) := by
  induction n with
  | zero => intro g s t; exact ⟨le_rfl, fun h => Or.inl h⟩
  | succ k ih =>
    intro g s t
    rw [rateLoop_succ]
    by_cases hsv : is_solved g
    · rw [if_pos hsv]
      exact ⟨le_rfl, fun h => Or.inl h⟩
    · simp only [hsv, Bool.false_eq_true, if_false]
      cases hstep : stepCode g with
      | applied g2 tag =>
        have h1 := ih g2 (max s (TECHNIQUE_SCORES tag)) (t ++ [tag])
        refine ⟨le_trans (le_max_left _ _) h1.1, fun hmem => ?_⟩
        rcases h1.2 hmem with hin | hsc
        · rcases List.mem_append.1 hin with hin | hin
          · exact Or.inl hin
          · exact absurd (List.mem_singleton.1 hin).symm (stepCode_tag g g2 tag hstep)
        · exact Or.inr hsc
      | stuck => exact ⟨le_max_left _ _, fun _ => Or.inr (le_max_right _ _)⟩

set_option maxHeartbeats 4000000 in
theorem stepCode_cycleGrid : stepCode cycleGrid = .applied cycleGrid "pointing_pair" := by
  have h : init_candidates cycleGrid = cycleCands := by decide
  unfold stepCode
  rw [h]
  decide

set_option maxHeartbeats 4000000 in
theorem stepCode_emptyGrid : stepCode emptyGrid = .stuck := by
  have h : init_candidates emptyGrid = emptyCands := by decide
  unfold stepCode
  rw [h]
  decide

theorem rate_puzzle_emptyGrid :
    rate_puzzle emptyGrid = ("Hard", 200, ["requires_expert_technique"]) := by
  have h1000 : (1000 : Nat) = 999 + 1 := rfl
  have hloop : rateLoop 1000 emptyGrid 0 [] =
      (emptyGrid, 200, ["requires_expert_technique"]) := by
    rw [h1000, rateLoop_succ, stepCode_emptyGrid]
    norm_num [show is_solved emptyGrid = false from by decide]
  simp [rate_puzzle, hloop, labelOf]

theorem rateLoopH_succ (n : Nat) (st : Grid × Grid) (s : Nat) (t : List String) :
    rateLoopH (n + 1) st s t =
      if is_solved st.2 then (st, s, t)
      else
        match stepCode st.2 with
        | .applied g' tag =>
          rateLoopH n (st.1, g') (max s (TECHNIQUE_SCORES tag)) (t ++ [tag])
        | .stuck => (st, max s 200, t ++ ["requires_expert_technique"]) := rfl

/-- The call-state loop is the plain loop on the working grid, with the
caller's grid carried along untouched. -/
theorem rateLoopH_eq (n : Nat) : ∀ (st : Grid × Grid) (s : Nat) (t : List String),
    rateLoopH n st s t =
      ((st.1, (rateLoop n st.2 s t).1), (rateLoop n st.2 s t).2) := by
  induction n with
  | zero => intro st s t; rfl
  | succ k ih =>
    intro st s t
    rw [rateLoopH_succ, rateLoop_succ]
    by_cases hs : is_solved st.2
    · rw [if_pos hs, if_pos hs]
    · rw [if_neg hs, if_neg hs]
      cases hstep : stepCode st.2 with
      | applied g2 tag => exact ih (st.1, g2) _ _
      | stuck => rfl

/-- The call boundary returns the engine result on the board's grid and hands
the caller's board back unchanged. -/
theorem rate_puzzle_call_eq (b : Board) :
    rate_puzzle_call b = (rate_puzzle b.grid, b) := by
  obtain ⟨g, sz⟩ := b
  unfold rate_puzzle_call rate_puzzle
  rw [rateLoopH_eq]
  rfl

theorem labelOf_eq_labelSpec (s : Nat) : labelOf s = labelSpec s := by
  unfold labelOf labelSpec
  split_ifs <;> first | rfl | omega

theorem labelOf_mem (s : Nat) : labelOf s ∈ ["Easy", "Medium", "Hard"] := by
  unfold labelOf
  split_ifs <;> simp

/-! ## Claim C1 -/

/-- C1 fails on the code: on the valid board `cycleGrid` the engine applies
`pointing_pair` (grid unchanged) every one of the 1000 iterations, so it
terminates by the iteration cap with the grid unsolved, yet the returned
rating has `max_score = 80 < 200` and label `"Medium"`, not `"Hard"`. -/
theorem C1_counterexample :
    isValidGrid cycleGrid = true ∧
    rateLoop 1000 cycleGrid 0 [] =
      (cycleGrid, 80, List.replicate 1000 "pointing_pair") ∧
    is_solved cycleGrid = false ∧
    rate_puzzle cycleGrid = ("Medium", 80, List.replicate 1000 "pointing_pair") := by
  have hs : is_solved cycleGrid = false := by decide
  have hloop := rateLoop_cycle cycleGrid "pointing_pair" hs stepCode_cycleGrid
    1000 0 [] (by norm_num)
  have hloop' : rateLoop 1000 cycleGrid 0 [] =
      (cycleGrid, 80, List.replicate 1000 "pointing_pair") := by
    rw [hloop]; rfl
  refine ⟨by decide, hloop', hs, ?_⟩
  unfold rate_puzzle
  rw [hloop']
  rfl

/-- C1 (amended): a score of at least 200 and the label `"Hard"` are
guaranteed exactly when the engine records the `requires_expert_technique`
sentinel, i.e. when it halts because no technique applies — not when the
iteration cap is reached. -/
theorem C1_expert_scores_hard : ∀ g : Grid,
    "requires_expert_technique" ∈ (rate_puzzle g).2.2 →
    200 ≤ (rate_puzzle g).2.1 ∧ (rate_puzzle g).1 = "Hard" := by
  intro g h
  have h' : "requires_expert_technique" ∈ (rateLoop 1000 g 0 []).2.2 := h
  rcases (rateLoop_expert 1000 g 0 []).2 h' with h0 | h200
  · simp at h0
  · refine ⟨h200, ?_⟩
    show labelOf (rateLoop 1000 g 0 []).2.1 = "Hard"
    unfold labelOf
    rw [if_neg (by omega), if_neg (by omega)]

/-- C1 (witness): the empty grid goes stuck immediately and gets score 200,
label `"Hard"`. -/
theorem C1_expert_scores_hard_witness :
    "requires_expert_technique" ∈ (rate_puzzle emptyGrid).2.2 ∧
    (200 ≤ (rate_puzzle emptyGrid).2.1 ∧ (rate_puzzle emptyGrid).1 = "Hard") :=
  have hmem : "requires_expert_technique" ∈ (rate_puzzle emptyGrid).2.2 := by
    rw [rate_puzzle_emptyGrid]; simp
  ⟨hmem, C1_expert_scores_hard emptyGrid hmem⟩

/-! ## Claim C2 -/

/-- C2 fails on the code: `rate_puzzle` performs no input validation at all
(no `InvalidBoard` error exists anywhere in the repository); on the grid of
all fives — which violates the uniqueness invariant everywhere — it happily
returns the rating `("Easy", 0, [])`. -/
theorem C2_counterexample :
    isValidGrid allFives = false ∧ rate_puzzle allFives = ("Easy", 0, []) := by
  constructor
  · decide
  · have hs : is_solved allFives = true := by decide
    unfold rate_puzzle
    rw [rateLoop_solved _ _ _ _ hs]
    rfl

/-- C2 (amended): for malformed 9×9 input `rate_puzzle` does not fail at all;
it returns an ordinary, well-formed rating triple. -/
theorem C2_no_validation : ∀ g : Grid, isValidGrid g = false →
    (rate_puzzle g).1 = labelSpec (rate_puzzle g).2.1 ∧
    (rate_puzzle g).1 ∈ ["Easy", "Medium", "Hard"] :=
  fun _ _ => ⟨labelOf_eq_labelSpec _, labelOf_mem _⟩

/-- C2 (witness): the all-fives grid is invalid and still rated. -/
theorem C2_no_validation_witness :
    isValidGrid allFives = false ∧
    ((rate_puzzle allFives).1 = labelSpec (rate_puzzle allFives).2.1 ∧
     (rate_puzzle allFives).1 ∈ ["Easy", "Medium", "Hard"]) :=
  ⟨by decide, C2_no_validation allFives (by decide)⟩

/-! ## Claim C7 -/

/-- C7: the difficulty label of every rating is exactly the function of the
final `max_score` given by the spec thresholds: ≤ 15 Easy, 15 < · ≤ 90
Medium, > 90 Hard. -/
theorem C7_label_thresholds : ∀ g : Grid,
    (rate_puzzle g).1 = labelSpec (rate_puzzle g).2.1 :=
  fun _ => labelOf_eq_labelSpec _

/-! ## Claim C8 -/

/-- C8: `rate_puzzle` deep-copies the board and mutates only the working
copy, so after the call the caller's board is unchanged (and the result is
the rating of its grid). -/
theorem C8_frame : ∀ b : Board,
    (rate_puzzle_call b).2 = b ∧ (rate_puzzle_call b).1 = rate_puzzle b.grid := by
  intro b
  rw [rate_puzzle_call_eq]
  exact ⟨rfl, rfl⟩

/-! ## Claim C9 -/

/-- C9: the engine is deterministic — two independent calls, each on a fresh
deep copy of the same grid, return identical rating triples (label, score,
and technique sequence). -/
theorem C9_determinism : ∀ b1 b2 : Board, b1.grid = b2.grid →
    (rate_puzzle_call (deepcopyBoard b1)).1 = (rate_puzzle_call (deepcopyBoard b2)).1 := by
  intro b1 b2 h
  rw [rate_puzzle_call_eq, rate_puzzle_call_eq]
  show rate_puzzle (deepcopyGrid b1.grid) = rate_puzzle (deepcopyGrid b2.grid)
  unfold deepcopyGrid
  rw [h]

/-- C9 (witness): two fresh copies of the all-fives board rate identically. -/
theorem C9_determinism_witness :
    (rate_puzzle_call (deepcopyBoard ⟨allFives, 9⟩)).1 =
      (rate_puzzle_call (deepcopyBoard ⟨allFives, 9⟩)).1 :=
  C9_determinism ⟨allFives, 9⟩ ⟨allFives, 9⟩ rfl

/-! ## Claim C10 -/

/-- C10: on a board whose 81 cells are already all nonzero, the loop performs
zero iterations and the result is exactly `("Easy", 0, [])`. -/
theorem C10_solved_board : ∀ g : Grid, (∀ r c, g r c ≠ 0) →
    rate_puzzle g = ("Easy", 0, []) := by
  intro g h
  have hs : is_solved g = true := by
    unfold is_solved
    simp only [List.all_eq_true, bne_iff_ne, ne_eq]
    exact fun r _ c _ => h r c
  unfold rate_puzzle
  rw [rateLoop_solved _ _ _ _ hs]
  rfl

/-- C10 (witness): a concrete fully solved grid rates `("Easy", 0, [])`. -/
theorem C10_solved_board_witness : rate_puzzle solvedGrid = ("Easy", 0, []) :=
  C10_solved_board solvedGrid (by decide)

/-! ## Claim C6 -/

/-- The digits (including 0 for empty cells) appearing in row `r`. -/
def rowDigits (g : Grid) (r : Fin 9) : Finset Nat :=
  Finset.univ.image fun c => g r c

/-- The digits appearing in column `c`. -/
def colDigits (g : Grid) (c : Fin 9) : Finset Nat :=
  Finset.univ.image fun r => g r c

/-- The digits appearing in the 3×3 box of cell `(r, c)`. -/
def boxDigits (g : Grid) (r c : Fin 9) : Finset Nat :=
  (Finset.univ.filter fun p : Fin 9 × Fin 9 =>
    p.1.val / 3 = r.val / 3 ∧ p.2.val / 3 = c.val / 3).image fun p => g p.1 p.2

/-- C6: right after the candidate map is built, `candidates[(r,c)]` is defined
iff `grid[r][c] == 0`, and for every empty cell it equals {1..9} minus every
digit present anywhere in the cell's row, column, or box. -/
theorem C6_candidate_invariant : ∀ (g : Grid) (r c : Fin 9),
    ((init_candidates g r c).isSome ↔ g r c = 0) ∧
    (g r c = 0 → init_candidates g r c =
      some ((Finset.Icc 1 9) \
        (rowDigits g r ∪ colDigits g c ∪ boxDigits g r c))) := by
  intro g r c
  constructor
  · unfold init_candidates
    split_ifs with h <;> simp [h]
  · intro h
    have : init_candidates g r c = some (get_candidates g r c) := by
      unfold init_candidates
      rw [if_pos h]
    rw [this]
    congr 1
    unfold get_candidates
    rw [if_neg (by simp [h])]
    ext n
    simp only [Finset.mem_filter, Finset.mem_sdiff, Finset.mem_union, Finset.mem_image,
      rowDigits, colDigits, boxDigits, rowHas, colHas, boxHas, List.any_eq_true,
      List.mem_finRange, true_and, beq_iff_eq, Bool.and_eq_true, decide_eq_true_eq,
      Finset.mem_univ, Prod.exists]
    constructor
    · rintro ⟨hicc, hrow, hcol, hbox⟩
      refine ⟨hicc, ?_⟩
      rintro ((⟨c', hc'⟩ | ⟨r', hr'⟩) | ⟨r', c', ⟨h1, h2⟩, h3⟩)
      · exact hrow ⟨c', hc'⟩
      · exact hcol ⟨r', hr'⟩
      · exact hbox ⟨r', c', ⟨h1, h2⟩, h3⟩
    · rintro ⟨hicc, hn⟩
      push_neg at hn
      exact ⟨hicc, by tauto, by tauto, by tauto⟩

/-- C6 (witness): the invariant instantiated at cell (0,0) of `cycleGrid`. -/
theorem C6_candidate_invariant_witness :
    cycleGrid 0 0 = 0 ∧
    init_candidates cycleGrid 0 0 =
      some ((Finset.Icc 1 9) \
        (rowDigits cycleGrid 0 ∪ colDigits cycleGrid 0 ∪ boxDigits cycleGrid 0 0)) :=
  ⟨by decide, (C6_candidate_invariant cycleGrid 0 0).2 (by decide)⟩

/-! ## General lemmas about the elimination folds -/

theorem elimStep_pos {m : CandMap} {k : Nat} {t : Fin 9 × Fin 9 × Nat}
    (hc : candHas m t.1 t.2.1 t.2.2 = true) :
    elimStep (m, k) t = (eraseCand m t.1 t.2.1 t.2.2, k + 1) := by
  simp [elimStep, hc]

theorem elimStep_neg {m : CandMap} {k : Nat} {t : Fin 9 × Fin 9 × Nat}
    (hc : ¬ candHas m t.1 t.2.1 t.2.2 = true) :
    elimStep (m, k) t = (m, k) := by
  simp [elimStep, hc]

/-- The eliminated counter never decreases, and staying equal means the map
was untouched. -/
theorem elimFold_count (ts : List (Fin 9 × Fin 9 × Nat)) : ∀ (m : CandMap) (k : Nat),
    k ≤ (ts.foldl elimStep (m, k)).2 ∧
    ((ts.foldl elimStep (m, k)).2 = k → (ts.foldl elimStep (m, k)).1 = m) := by
  induction ts with
  | nil => intro m k; exact ⟨le_rfl, fun _ => rfl⟩
  | cons t ts ih =>
    intro m k
    rw [List.foldl_cons]
    by_cases hc : candHas m t.1 t.2.1 t.2.2 = true
    · rw [elimStep_pos hc]
      have h1 := (ih (eraseCand m t.1 t.2.1 t.2.2) (k + 1)).1
      exact ⟨by omega, fun hk => absurd hk (by omega)⟩
    · rw [elimStep_neg hc]
      exact ih m k

theorem applyElims_zero (ts : List (Fin 9 × Fin 9 × Nat)) (m : CandMap)
    (h : (applyElims ts m).2 = 0) : (applyElims ts m).1 = m :=
  (elimFold_count ts m 0).2 h

theorem findStep_def (tf : CandMap → α → List (Fin 9 × Fin 9 × Nat))
    (st : CandMap × Nat) (f : α) :
    findStep tf st f = ((applyElims (tf st.1 f) st.1).1, st.2 + (applyElims (tf st.1 f) st.1).2) :=
  rfl

theorem findFold_count (tf : CandMap → α → List (Fin 9 × Fin 9 × Nat)) (fs : List α) :
    ∀ (m : CandMap) (k : Nat),
      k ≤ (fs.foldl (findStep tf) (m, k)).2 ∧
      ((fs.foldl (findStep tf) (m, k)).2 = k → (fs.foldl (findStep tf) (m, k)).1 = m) := by
  induction fs with
  | nil => intro m k; exact ⟨le_rfl, fun _ => rfl⟩
  | cons f fs ih =>
    intro m k
    rw [List.foldl_cons, findStep_def]
    dsimp only
    rcases Nat.eq_zero_or_pos (applyElims (tf m f) m).2 with he | he
    · rw [he, applyElims_zero _ _ he]
      exact ih m (k + 0)
    · have h1 := (ih (applyElims (tf m f) m).1 (k + (applyElims (tf m f) m).2)).1
      exact ⟨by omega, fun hk => absurd hk (by omega)⟩

theorem applyFindings_zero (tf : CandMap → α → List (Fin 9 × Fin 9 × Nat))
    (m : CandMap) (fs : List α) (h : (applyFindings tf m fs).2 = 0) :
    (applyFindings tf m fs).1 = m :=
  (findFold_count tf fs m 0).2 h

theorem applyFindings_single (tf : CandMap → α → List (Fin 9 × Fin 9 × Nat))
    (m : CandMap) (f : α) :
    applyFindings tf m [f] = applyElims (tf m f) m := by
  show findStep tf (m, 0) f = _
  rw [findStep_def]
  exact Prod.ext rfl (Nat.zero_add _)

/-- One elimination attempt at a cell produces, at that cell, exactly the
erased set (whether or not the digit was present), and leaves every other
cell alone. -/
theorem elimStep_fst_self (m : CandMap) (k : Nat) (pr pc : Fin 9) (z : Nat) :
    (elimStep (m, k) (pr, pc, z)).1 pr pc = (m pr pc).map (fun s => s.erase z) := by
  by_cases hc : candHas m pr pc z = true
  · rw [elimStep_pos hc]
    unfold eraseCand
    dsimp only
    rw [if_pos ⟨rfl, rfl⟩]
  · rw [elimStep_neg hc]
    dsimp only
    unfold candHas at hc
    match hm : m pr pc with
    | none => rfl
    | some s =>
      rw [hm] at hc
      simp only [decide_eq_true_eq] at hc
      rw [show Option.map (fun s => s.erase z) (some s) = some (s.erase z) from rfl]
      rw [Finset.erase_eq_of_not_mem hc]

theorem elimStep_fst_other (m : CandMap) (k : Nat) (pr pc : Fin 9) (z : Nat)
    (r c : Fin 9) (h : ¬(r = pr ∧ c = pc)) :
    (elimStep (m, k) (pr, pc, z)).1 r c = m r c := by
  by_cases hc : candHas m pr pc z = true
  · rw [elimStep_pos hc]
    unfold eraseCand
    dsimp only
    rw [if_neg h]
  · rw [elimStep_neg hc]

/-- Pointwise description of a run of single-digit eliminations over a
duplicate-free cell list. -/
theorem elimFold_cells (z : Nat) : ∀ (cl : List (Fin 9 × Fin 9)), cl.Nodup →
    ∀ (m : CandMap) (k : Nat) (r c : Fin 9),
      ((cl.map fun p => (p.1, p.2, z)).foldl elimStep (m, k)).1 r c =
        if (r, c) ∈ cl then (m r c).map (fun s => s.erase z) else m r c := by
  intro cl
  induction cl with
  | nil => intro _ m k r c; simp
  | cons p cl ih =>
    intro hnd m k r c
    obtain ⟨hp, hcl⟩ := List.nodup_cons.mp hnd
    rw [List.map_cons, List.foldl_cons]
    rcases hst : elimStep (m, k) (p.1, p.2, z) with ⟨m1, k1⟩
    by_cases hrc : (r, c) = p
    · rw [if_pos (show ((r, c) ∈ p :: cl) from by rw [hrc]; exact List.mem_cons_self p cl)]
      rw [ih hcl m1 k1 r c]
      rw [if_neg (by rw [hrc]; exact hp)]
      have := elimStep_fst_self m k p.1 p.2 z
      rw [hst] at this
      simp only at this
      have hr : r = p.1 := by rw [← hrc]
      have hc2 : c = p.2 := by rw [← hrc]
      rw [hr, hc2]
      exact this
    · rw [ih hcl m1 k1 r c]
      have hne : ¬(r = p.1 ∧ c = p.2) := by
        intro ⟨h1, h2⟩
        exact hrc (by rw [h1, h2])
      have := elimStep_fst_other m k p.1 p.2 z r c hne
      rw [hst] at this
      simp only at this
      rw [this]
      have hmem : ((r, c) ∈ p :: cl) ↔ ((r, c) ∈ cl) := by
        simp [List.mem_cons, hrc]
      by_cases hin : (r, c) ∈ cl
      · rw [if_pos hin, if_pos (hmem.mpr hin)]
      · rw [if_neg hin, if_neg (fun hx => hin (hmem.mp hx))]

/-! ## Claim C4 -/

theorem mem_ite_nil {c : Prop} [Decidable c] {x : β} {l : List β} :
    x ∈ (if c then l else []) ↔ c ∧ x ∈ l := by
  split_ifs with h <;> simp [h]

theorem allCellsList_nodup : allCellsList.Nodup := by decide

theorem mem_allCellsList (p : Fin 9 × Fin 9) : p ∈ allCellsList := by
  rcases p with ⟨r, c⟩
  unfold allCellsList
  rw [List.mem_flatMap]
  exact ⟨r, List.mem_finRange r, List.mem_map.mpr ⟨c, List.mem_finRange c, rfl⟩⟩

theorem xyCellList_nodup (m : CandMap) (f : XYFinding) : (xyCellList m f).Nodup :=
  allCellsList_nodup.filter _

theorem mem_xyCellList (m : CandMap) (f : XYFinding) (r c : Fin 9) :
    ((r, c) ∈ xyCellList m f) ↔
      ((r, c) ∉ [f.pivot, f.wing1, f.wing2] ∧ (m r c).isSome ∧
       can_see r c f.wing1.1 f.wing1.2 = true ∧
       can_see r c f.wing2.1 f.wing2.2 = true) := by
  unfold xyCellList
  rw [List.mem_filter]
  simp [mem_allCellsList, and_assoc]

theorem apply_xy_wing_single (m : CandMap) (f : XYFinding) (r c : Fin 9) :
    (apply_xy_wing m [f]).1 r c =
      if (r, c) ∈ xyCellList m f then (m r c).map (fun s => s.erase f.z)
      else m r c := by
  unfold apply_xy_wing
  rw [applyFindings_single]
  exact elimFold_cells f.z (xyCellList m f) (xyCellList_nodup m f) m 0 r c

theorem mem_biValueCells {m : CandMap} {e : (Fin 9 × Fin 9) × Nat × Nat} :
    e ∈ biValueCells m ↔
      ∃ s, m e.1.1 e.1.2 = some s ∧ s.card = 2 ∧ e.2 = sortedPairOf s := by
  unfold biValueCells
  simp only [List.mem_flatMap, List.mem_filterMap, List.mem_finRange, true_and]
  constructor
  · rintro ⟨r, c, he⟩
    unfold biEntry at he
    match hm : m r c with
    | none => rw [hm] at he; cases he
    | some s =>
      rw [hm] at he
      dsimp only at he
      by_cases hcard : s.card = 2
      · rw [if_pos hcard] at he
        cases he
        exact ⟨s, hm, hcard, rfl⟩
      · rw [if_neg hcard] at he
        cases he
  · rintro ⟨s, hm, hcard, hpair⟩
    refine ⟨e.1.1, e.1.2, ?_⟩
    unfold biEntry
    rw [hm]
    dsimp only
    rw [if_pos hcard, ← hpair]

theorem card_two_sorted (s : Finset Nat) (h : s.card = 2) :
    ∃ a b, a < b ∧ s = {a, b} ∧ sortedPairOf s = (a, b) := by
  obtain ⟨x, y, hxy, rfl⟩ := Finset.card_eq_two.1 h
  have hmin : ({x, y} : Finset Nat).min = some (min x y) := by
    rw [Finset.min_insert, Finset.min_singleton, ← WithTop.coe_min]
    rfl
  have hmax : ({x, y} : Finset Nat).max = some (max x y) := by
    rw [Finset.max_insert, Finset.max_singleton, ← WithBot.coe_max]
    rfl
  rcases lt_or_gt_of_ne hxy with hlt | hgt
  · refine ⟨x, y, hlt, rfl, ?_⟩
    unfold sortedPairOf
    rw [hmin, hmax, min_eq_left (le_of_lt hlt), max_eq_right (le_of_lt hlt)]
    rfl
  · refine ⟨y, x, hgt, Finset.pair_comm x y, ?_⟩
    unfold sortedPairOf
    rw [hmin, hmax, min_eq_right (le_of_lt hgt), max_eq_left (le_of_lt hgt)]
    rfl

/-- C4: every XY-Wing finding consists of three distinct bi-value cells with
candidate patterns {X,Y} (pivot), {X,Z} (wing 1), {Y,Z} (wing 2), with both
wings seeing the pivot and Z distinct from X and Y; and applying the finding
removes Z from exactly the cells, other than the three, that see both wings. -/
theorem C4_xy_wing : ∀ (m : CandMap) (f : XYFinding), f ∈ find_xy_wing m →
    (f.pivot ≠ f.wing1 ∧ f.pivot ≠ f.wing2 ∧ f.wing1 ≠ f.wing2) ∧
    can_see f.pivot.1 f.pivot.2 f.wing1.1 f.wing1.2 = true ∧
    can_see f.pivot.1 f.pivot.2 f.wing2.1 f.wing2.2 = true ∧
    (∃ X Y, X ≠ Y ∧ f.z ≠ X ∧ f.z ≠ Y ∧
      m f.pivot.1 f.pivot.2 = some {X, Y} ∧
      m f.wing1.1 f.wing1.2 = some {X, f.z} ∧
      m f.wing2.1 f.wing2.2 = some {Y, f.z}) ∧
    (∀ r c, (apply_xy_wing m [f]).1 r c =
      if (r, c) ≠ f.pivot ∧ (r, c) ≠ f.wing1 ∧ (r, c) ≠ f.wing2 ∧
         can_see r c f.wing1.1 f.wing1.2 = true ∧
         can_see r c f.wing2.1 f.wing2.2 = true
       then (m r c).map (fun s => s.erase f.z) else m r c) := by
  intro m f hf
  unfold find_xy_wing at hf
  simp only [List.mem_flatMap] at hf
  obtain ⟨pv, hpv, w1, hw1, hin⟩ := hf
  rw [mem_ite_nil] at hin
  obtain ⟨⟨hne1, hsee1, hX⟩, hin⟩ := hin
  rw [List.mem_filterMap] at hin
  obtain ⟨w2, hw2, heq⟩ := hin
  by_cases hcond2 : w2.1 ≠ pv.1 ∧ w2.1 ≠ w1.1 ∧
      can_see pv.1.1 pv.1.2 w2.1.1 w2.1.2 = true ∧
      ({w2.2.1, w2.2.2} : Finset Nat) =
        {pv.2.2, if w1.2.1 ≠ pv.2.1 then w1.2.1 else w1.2.2}
  case neg => rw [if_neg hcond2] at heq; cases heq
  rw [if_pos hcond2] at heq
  obtain ⟨hw2ne1, hw2ne2, hsee2, hset2⟩ := hcond2
  cases heq
  dsimp only
  rcases mem_biValueCells.mp hpv with ⟨sp, hmp, hcardp, hpairp⟩
  rcases card_two_sorted sp hcardp with ⟨X, Y, hXY, hspXY, hsortp⟩
  have hpv2 : pv.2 = (X, Y) := by rw [hpairp, hsortp]
  rcases mem_biValueCells.mp hw1 with ⟨s1, hm1, hcard1, hpair1⟩
  rcases card_two_sorted s1 hcard1 with ⟨a, b, hab, hs1ab, hsort1⟩
  have hw12 : w1.2 = (a, b) := by rw [hpair1, hsort1]
  rcases mem_biValueCells.mp hw2 with ⟨s2, hm2, hcard2, hpair2⟩
  rcases card_two_sorted s2 hcard2 with ⟨a2, b2, hab2, hs2ab, hsort2⟩
  have hw22 : w2.2 = (a2, b2) := by rw [hpair2, hsort2]
  rw [hpv2, hw12] at hX
  rw [hpv2, hw12, hw22] at hset2
  rw [hpv2, hw12]
  dsimp only at hX hset2 ⊢
  set z := if a ≠ X then a else b with hzdef
  have hzw1 : ({X, z} : Finset Nat) = {a, b} ∧ z ≠ X := by
    by_cases haX : a = X
    · have hz : z = b := by rw [hzdef, if_neg (by rw [haX]; exact fun h => h rfl)]
      rw [hz, ← haX]
      exact ⟨rfl, fun hba => (Nat.lt_irrefl a) (by rw [hba] at hab; exact hab)⟩
    · have hz : z = a := by rw [hzdef, if_pos haX]
      have hXb : X = b := by
        rcases hX with h | h
        · exact absurd h.symm haX
        · exact h
      rw [hz, hXb]
      exact ⟨Finset.pair_comm b a, fun hax => haX (by rw [hax, hXb])⟩
  have hzY : z ≠ Y := by
    intro hzy
    have hcards : ({a2, b2} : Finset Nat).card = 2 := Finset.card_pair (ne_of_lt hab2)
    rw [hset2, ← hzy] at hcards
    simp at hcards
  refine ⟨⟨Ne.symm hne1, Ne.symm hw2ne1, Ne.symm hw2ne2⟩, hsee1, hsee2, ?_, ?_⟩
  · refine ⟨X, Y, ne_of_lt hXY, hzw1.2, hzY, ?_, ?_, ?_⟩
    · rw [hmp, hspXY]
    · rw [hm1, hs1ab, ← hzw1.1]
    · rw [hm2, hs2ab, hset2, Finset.pair_comm Y z]
  · intro r c
    rw [apply_xy_wing_single]
    dsimp only
    by_cases hsome : (m r c).isSome
    · have hiff : ((r, c) ∈ xyCellList m ⟨pv.1, w1.1, w2.1, z⟩) ↔
          ((r, c) ≠ pv.1 ∧ (r, c) ≠ w1.1 ∧ (r, c) ≠ w2.1 ∧
           can_see r c w1.1.1 w1.1.2 = true ∧ can_see r c w2.1.1 w2.1.2 = true) := by
        rw [mem_xyCellList]
        simp only [List.mem_cons, List.not_mem_nil, or_false, not_or]
        constructor
        · rintro ⟨⟨h1, h2, h3⟩, _, h4, h5⟩
          exact ⟨h1, h2, h3, h4, h5⟩
        · rintro ⟨h1, h2, h3, h4, h5⟩
          exact ⟨⟨h1, h2, h3⟩, hsome, h4, h5⟩
      rw [if_congr hiff rfl rfl]
    · have hnone : m r c = none := Option.not_isSome_iff_eq_none.1 hsome
      rw [hnone]
      split_ifs <;> rfl

/-- A small candidate map containing one XY-Wing: pivot (0,0) with {1,2},
wing 1 at (0,4) with {1,3} (same row), wing 2 at (4,0) with {2,3} (same
column); the eliminated digit is 3. -/
def xyWitnessMap : CandMap := fun r c =>
  if r = 0 ∧ c = 0 then some {1, 2}
  else if r = 0 ∧ c = 4 then some {1, 3}
  else if r = 4 ∧ c = 0 then some {2, 3}
  else none

def xyWitnessFinding : XYFinding := ⟨(0, 0), (0, 4), (4, 0), 3⟩

/-- C4 (witness): the XY-Wing property at the concrete finding above. -/
theorem C4_xy_wing_witness :
    xyWitnessFinding ∈ find_xy_wing xyWitnessMap ∧
    ((xyWitnessFinding.pivot ≠ xyWitnessFinding.wing1 ∧
      xyWitnessFinding.pivot ≠ xyWitnessFinding.wing2 ∧
      xyWitnessFinding.wing1 ≠ xyWitnessFinding.wing2) ∧
     can_see xyWitnessFinding.pivot.1 xyWitnessFinding.pivot.2
       xyWitnessFinding.wing1.1 xyWitnessFinding.wing1.2 = true ∧
     can_see xyWitnessFinding.pivot.1 xyWitnessFinding.pivot.2
       xyWitnessFinding.wing2.1 xyWitnessFinding.wing2.2 = true ∧
     (∃ X Y, X ≠ Y ∧ xyWitnessFinding.z ≠ X ∧ xyWitnessFinding.z ≠ Y ∧
       xyWitnessMap xyWitnessFinding.pivot.1 xyWitnessFinding.pivot.2 = some {X, Y} ∧
       xyWitnessMap xyWitnessFinding.wing1.1 xyWitnessFinding.wing1.2 =
         some {X, xyWitnessFinding.z} ∧
       xyWitnessMap xyWitnessFinding.wing2.1 xyWitnessFinding.wing2.2 =
         some {Y, xyWitnessFinding.z}) ∧
     (∀ r c, (apply_xy_wing xyWitnessMap [xyWitnessFinding]).1 r c =
       if (r, c) ≠ xyWitnessFinding.pivot ∧ (r, c) ≠ xyWitnessFinding.wing1 ∧
          (r, c) ≠ xyWitnessFinding.wing2 ∧
          can_see r c xyWitnessFinding.wing1.1 xyWitnessFinding.wing1.2 = true ∧
          can_see r c xyWitnessFinding.wing2.1 xyWitnessFinding.wing2.2 = true
        then (xyWitnessMap r c).map (fun s => s.erase xyWitnessFinding.z)
        else xyWitnessMap r c)) :=
  ⟨by decide, C4_xy_wing xyWitnessMap xyWitnessFinding (by decide)⟩

/-! ## Claim C5 -/

theorem listPairs_mem_append (l₂ : List α) (x y : α) (hy : y ∈ l₂) :
    ∀ l₁ : List α, (x, y) ∈ listPairs (l₁ ++ x :: l₂) := by
  intro l₁
  induction l₁ with
  | nil =>
    rw [List.nil_append, listPairs]
    exact List.mem_append.mpr (Or.inl (List.mem_map.mpr ⟨y, hy, rfl⟩))
  | cons a l₁ ih =>
    rw [List.cons_append, listPairs]
    exact List.mem_append.mpr (Or.inr ih)

theorem finRange_two_split (a b : Fin 9) (h : a < b) :
    ∃ l₁ l₂, List.finRange 9 = l₁ ++ a :: l₂ ∧ b ∈ l₂ := by
  obtain ⟨s, t, hst⟩ := List.append_of_mem (List.mem_finRange a)
  refine ⟨s, t, hst, ?_⟩
  have hb := List.mem_finRange b
  have hp := List.pairwise_lt_finRange 9
  rw [hst] at hb hp
  rcases List.mem_append.1 hb with hbs | hbt
  · have hba := (List.pairwise_append.1 hp).2.2 b hbs a (List.mem_cons_self a t)
    exact absurd hba (lt_asymm h)
  · rcases List.mem_cons.1 hbt with hba | hbt
    · exact absurd h (by rw [hba]; exact lt_irrefl a)
    · exact hbt

theorem mem_digitsList {n : Nat} : n ∈ digitsList ↔ 1 ≤ n ∧ n ≤ 9 := by
  have hd : digitsList = [1, 2, 3, 4, 5, 6, 7, 8, 9] := rfl
  rw [hd]
  simp
  omega

theorem rowPositionsFor_nodup (m : CandMap) (n : Nat) (r : Fin 9) :
    (rowPositionsFor m n r).Nodup :=
  (List.nodup_finRange 9).filter _

theorem colPositionsFor_nodup (m : CandMap) (n : Nat) (c : Fin 9) :
    (colPositionsFor m n c).Nodup :=
  (List.nodup_finRange 9).filter _

theorem xwCellList_nodup (f : XWFinding) (hc : f.cross.1 ≠ f.cross.2) :
    (xwCellList f).Nodup := by
  unfold xwCellList
  split_ifs with hp
  · rw [List.nodup_flatMap]
    constructor
    · intro x _
      split_ifs
      · simp [Prod.ext_iff, hc]
      · simp
    · refine List.Pairwise.imp ?_ (List.pairwise_lt_finRange 9)
      intro a b hab x hxa hxb
      rw [mem_ite_nil] at hxa hxb
      have ha : x.1 = a := by
        rcases List.mem_cons.1 hxa.2 with h | h
        · rw [h]
        · rw [List.mem_singleton.1 h]
      have hb : x.1 = b := by
        rcases List.mem_cons.1 hxb.2 with h | h
        · rw [h]
        · rw [List.mem_singleton.1 h]
      exact absurd (ha ▸ hb) (ne_of_lt hab)
  · rw [List.nodup_flatMap]
    constructor
    · intro x _
      split_ifs
      · simp [Prod.ext_iff, hc]
      · simp
    · refine List.Pairwise.imp ?_ (List.pairwise_lt_finRange 9)
      intro a b hab x hxa hxb
      rw [mem_ite_nil] at hxa hxb
      have ha : x.2 = a := by
        rcases List.mem_cons.1 hxa.2 with h | h
        · rw [h]
        · rw [List.mem_singleton.1 h]
      have hb : x.2 = b := by
        rcases List.mem_cons.1 hxb.2 with h | h
        · rw [h]
        · rw [List.mem_singleton.1 h]
      exact absurd (ha ▸ hb) (ne_of_lt hab)

theorem mem_xwCellList_rows (f : XWFinding) (hp : f.patternType = "rows") (r c : Fin 9) :
    ((r, c) ∈ xwCellList f) ↔
      (r ≠ f.lines.1 ∧ r ≠ f.lines.2 ∧ (c = f.cross.1 ∨ c = f.cross.2)) := by
  unfold xwCellList
  rw [if_pos hp]
  rw [List.mem_flatMap]
  constructor
  · rintro ⟨a, _, ha⟩
    rw [mem_ite_nil] at ha
    obtain ⟨⟨h1, h2⟩, hmem⟩ := ha
    rcases List.mem_cons.1 hmem with h | h
    · rcases Prod.mk.injEq .. ▸ h with ⟨rfl, rfl⟩
      exact ⟨h1, h2, Or.inl rfl⟩
    · rcases Prod.mk.injEq .. ▸ List.mem_singleton.1 h with ⟨rfl, rfl⟩
      exact ⟨h1, h2, Or.inr rfl⟩
  · rintro ⟨h1, h2, h3⟩
    refine ⟨r, List.mem_finRange r, mem_ite_nil.mpr ⟨⟨h1, h2⟩, ?_⟩⟩
    rcases h3 with rfl | rfl
    · exact List.mem_cons_self _ _
    · exact List.mem_cons_of_mem _ (List.mem_singleton.mpr rfl)

theorem mem_xwCellList_cols (f : XWFinding) (hp : f.patternType ≠ "rows") (r c : Fin 9) :
    ((r, c) ∈ xwCellList f) ↔
      (c ≠ f.lines.1 ∧ c ≠ f.lines.2 ∧ (r = f.cross.1 ∨ r = f.cross.2)) := by
  unfold xwCellList
  rw [if_neg hp]
  rw [List.mem_flatMap]
  constructor
  · rintro ⟨a, _, ha⟩
    rw [mem_ite_nil] at ha
    obtain ⟨⟨h1, h2⟩, hmem⟩ := ha
    rcases List.mem_cons.1 hmem with h | h
    · rcases Prod.mk.injEq .. ▸ h with ⟨rfl, rfl⟩
      exact ⟨h1, h2, Or.inl rfl⟩
    · rcases Prod.mk.injEq .. ▸ List.mem_singleton.1 h with ⟨rfl, rfl⟩
      exact ⟨h1, h2, Or.inr rfl⟩
  · rintro ⟨h1, h2, h3⟩
    refine ⟨c, List.mem_finRange c, mem_ite_nil.mpr ⟨⟨h1, h2⟩, ?_⟩⟩
    rcases h3 with rfl | rfl
    · exact List.mem_cons_self _ _
    · exact List.mem_cons_of_mem _ (List.mem_singleton.mpr rfl)

theorem apply_x_wing_single (m : CandMap) (f : XWFinding) (hc : f.cross.1 ≠ f.cross.2)
    (r c : Fin 9) :
    (apply_x_wing m [f]).1 r c =
      if (r, c) ∈ xwCellList f then (m r c).map (fun s => s.erase f.num)
      else m r c := by
  unfold apply_x_wing
  rw [applyFindings_single]
  exact elimFold_cells f.num (xwCellList f) (xwCellList_nodup f hc) m 0 r c

theorem pair_mem_listPairs_filterMap {β : Type} (f : Fin 9 → Option β) (a b : Fin 9)
    (x y : β) (hab : a < b) (hfa : f a = some x) (hfb : f b = some y) :
    (x, y) ∈ listPairs ((List.finRange 9).filterMap f) := by
  obtain ⟨l₁, l₂, hsplit, hbmem⟩ := finRange_two_split a b hab
  rw [hsplit, List.filterMap_append, List.filterMap_cons, hfa]
  exact listPairs_mem_append _ x y (List.mem_filterMap.mpr ⟨b, hbmem, hfb⟩) _

/-- C5: if exactly two rows carry digit D in exactly two candidate columns and
those columns agree, find_x_wing reports the rows pattern and apply_x_wing
erases D from exactly the two columns in every other row; mirrored for
columns against rows. -/
theorem C5_x_wing :
    (∀ (m : CandMap) (D : Nat) (r1 r2 c1 c2 : Fin 9),
      1 ≤ D → D ≤ 9 → r1 < r2 →
      rowPositionsFor m D r1 = [c1, c2] →
      rowPositionsFor m D r2 = [c1, c2] →
      (∀ r, (rowPositionsFor m D r).length = 2 → r = r1 ∨ r = r2) →
      (⟨"rows", (r1, r2), (c1, c2), D⟩ : XWFinding) ∈ find_x_wing m ∧
      ∀ r c, (apply_x_wing m [⟨"rows", (r1, r2), (c1, c2), D⟩]).1 r c =
        if r ≠ r1 ∧ r ≠ r2 ∧ (c = c1 ∨ c = c2)
        then (m r c).map (fun s => s.erase D) else m r c) ∧
    (∀ (m : CandMap) (D : Nat) (co1 co2 ro1 ro2 : Fin 9),
      1 ≤ D → D ≤ 9 → co1 < co2 →
      colPositionsFor m D co1 = [ro1, ro2] →
      colPositionsFor m D co2 = [ro1, ro2] →
      (∀ c, (colPositionsFor m D c).length = 2 → c = co1 ∨ c = co2) →
      (⟨"cols", (co1, co2), (ro1, ro2), D⟩ : XWFinding) ∈ find_x_wing m ∧
      ∀ r c, (apply_x_wing m [⟨"cols", (co1, co2), (ro1, ro2), D⟩]).1 r c =
        if c ≠ co1 ∧ c ≠ co2 ∧ (r = ro1 ∨ r = ro2)
        then (m r c).map (fun s => s.erase D) else m r c) := by
  constructor
  · intro m D r1 r2 c1 c2 hD1 hD9 hlt h1 h2 hexact
    have hc12 : c1 ≠ c2 := by
      have hnd := rowPositionsFor_nodup m D r1
      rw [h1] at hnd
      intro heq
      exact (List.nodup_cons.1 hnd).1 (by rw [heq]; simp)
    constructor
    · unfold find_x_wing
      refine List.mem_append.mpr (Or.inl ?_)
      rw [List.mem_flatMap]
      refine ⟨D, mem_digitsList.mpr ⟨hD1, hD9⟩, ?_⟩
      unfold find_x_wing_in_rows
      dsimp only
      refine List.mem_filterMap.mpr ⟨((r1, [c1, c2]), (r2, [c1, c2])), ?_, ?_⟩
      · refine pair_mem_listPairs_filterMap _ r1 r2 _ _ hlt ?_ ?_
        · dsimp only
          rw [h1]
          rfl
        · dsimp only
          rw [h2]
          rfl
      · dsimp only
        rw [if_pos rfl]
        rfl
    · intro r c
      rw [apply_x_wing_single m _ hc12 r c]
      rw [if_congr (mem_xwCellList_rows _ rfl r c) rfl rfl]
    -- done rows
  · intro m D co1 co2 ro1 ro2 hD1 hD9 hlt h1 h2 hexact
    have hr12 : ro1 ≠ ro2 := by
      have hnd := colPositionsFor_nodup m D co1
      rw [h1] at hnd
      intro heq
      exact (List.nodup_cons.1 hnd).1 (by rw [heq]; simp)
    constructor
    · unfold find_x_wing
      refine List.mem_append.mpr (Or.inr ?_)
      rw [List.mem_flatMap]
      refine ⟨D, mem_digitsList.mpr ⟨hD1, hD9⟩, ?_⟩
      unfold find_x_wing_in_cols
      dsimp only
      refine List.mem_filterMap.mpr ⟨((co1, [ro1, ro2]), (co2, [ro1, ro2])), ?_, ?_⟩
      · refine pair_mem_listPairs_filterMap _ co1 co2 _ _ hlt ?_ ?_
        · dsimp only
          rw [h1]
          rfl
        · dsimp only
          rw [h2]
          rfl
      · dsimp only
        rw [if_pos rfl]
        rfl
    · intro r c
      rw [apply_x_wing_single m _ hr12 r c]
      rw [if_congr (mem_xwCellList_cols ⟨"cols", (co1, co2), (ro1, ro2), D⟩
        (show ("cols" : String) ≠ "rows" by decide) r c) rfl rfl]

/-- A candidate map with an X-Wing on digit 1: exactly rows 0 and 4 (and,
symmetrically, columns 0 and 4) hold 1 in exactly the two cells crossing at
columns (rows) 0 and 4. -/
def xwWitnessMap : CandMap := fun r c =>
  if (r = 0 ∨ r = 4) ∧ (c = 0 ∨ c = 4) then some {1, 5} else some {5, 6}

/-- C5 (witness): both halves of the X-Wing property at digit 1 on the
concrete map above. -/
theorem C5_x_wing_witness :
    (rowPositionsFor xwWitnessMap 1 0 = [0, 4] ∧
     rowPositionsFor xwWitnessMap 1 4 = [0, 4] ∧
     (∀ r, (rowPositionsFor xwWitnessMap 1 r).length = 2 → r = 0 ∨ r = 4) ∧
     ((⟨"rows", (0, 4), (0, 4), 1⟩ : XWFinding) ∈ find_x_wing xwWitnessMap ∧
      ∀ r c, (apply_x_wing xwWitnessMap [⟨"rows", (0, 4), (0, 4), 1⟩]).1 r c =
        if r ≠ 0 ∧ r ≠ 4 ∧ (c = 0 ∨ c = 4)
        then (xwWitnessMap r c).map (fun s => s.erase 1) else xwWitnessMap r c)) ∧
    (colPositionsFor xwWitnessMap 1 0 = [0, 4] ∧
     colPositionsFor xwWitnessMap 1 4 = [0, 4] ∧
     (∀ c, (colPositionsFor xwWitnessMap 1 c).length = 2 → c = 0 ∨ c = 4) ∧
     ((⟨"cols", (0, 4), (0, 4), 1⟩ : XWFinding) ∈ find_x_wing xwWitnessMap ∧
      ∀ r c, (apply_x_wing xwWitnessMap [⟨"cols", (0, 4), (0, 4), 1⟩]).1 r c =
        if c ≠ 0 ∧ c ≠ 4 ∧ (r = 0 ∨ r = 4)
        then (xwWitnessMap r c).map (fun s => s.erase 1) else xwWitnessMap r c)) :=
  ⟨⟨by decide, by decide, by decide,
    C5_x_wing.1 xwWitnessMap 1 0 4 0 4 (by decide) (by decide) (by decide)
      (by decide) (by decide) (by decide)⟩,
   ⟨by decide, by decide, by decide,
    C5_x_wing.2 xwWitnessMap 1 0 4 0 4 (by decide) (by decide) (by decide)
      (by decide) (by decide) (by decide)⟩⟩

/-- Spec-side dispatcher, following the spec's words: each iteration rebuilds
the candidate map from the current grid and attempts the seven detectors in
the fixed priority order naked single, hidden single, naked pair, pointing
pair, X-Wing, Swordfish, XY-Wing, all against that freshly built map, taking
the first whose application produces a nonzero effect; if none of the seven
has any effect the step is stuck. -/
def specStep (g : Grid) : StepRes :=
  let m := init_candidates g
  if find_naked_singles m ≠ [] then
    .applied (assignAll g (find_naked_singles m)) "naked_single"
  else if find_hidden_singles g m ≠ [] then
    .applied (assignAll g (find_hidden_singles g m)) "hidden_single"
  else if (apply_naked_pairs m (find_naked_pairs m)).2 > 0 then .applied g "naked_pair"
  else if (apply_pointing_pairs m (find_pointing_pairs m)).2 > 0 then
    .applied g "pointing_pair"
  else if (apply_x_wing m (find_x_wing m)).2 > 0 then .applied g "x_wing"
  else if (apply_swordfish m (find_swordfish m)).2 > 0 then .applied g "swordfish"
  else if (apply_xy_wing m (find_xy_wing m)).2 > 0 then .applied g "xy_wing"
  else .stuck

/-- C3: on every grid the code's iteration step equals the spec's first-hit
dispatch over the fixed seven-technique order on the freshly rebuilt
candidate map, and on an unsolved grid one loop iteration records that first
technique's tag, maxes the score with its weight and recurses, or — when no
technique has any effect — appends requires_expert_technique, raises the
score to at least 200 and halts. -/
theorem C3_dispatch (g : Grid) :
    stepCode g = specStep g ∧
    ∀ (n s : Nat) (t : List String), is_solved g = false →
      rateLoop (n + 1) g s t =
        match specStep g with
        | .applied g2 tag => rateLoop n g2 (max s (TECHNIQUE_SCORES tag)) (t ++ [tag])
        | .stuck => (g, max s 200, t ++ ["requires_expert_technique"]) := by
  have hstep : stepCode g = specStep g := by
    show stepAux g (init_candidates g) = specStep g
    unfold stepAux specStep
    dsimp only
    by_cases h1 : find_naked_singles (init_candidates g) = []
    · rw [if_neg (fun hne => hne h1), if_neg (fun hne => hne h1)]
      unfold stepHS
      dsimp only
      by_cases h2 : find_hidden_singles g (init_candidates g) = []
      · rw [if_neg (fun hne => hne h2), if_neg (fun hne => hne h2)]
        rw [stepNP_eq]
        by_cases h3 :
            (apply_naked_pairs (init_candidates g)
              (find_naked_pairs (init_candidates g))).2 > 0
        · rw [if_pos h3, if_pos h3]
        · rw [if_neg h3, if_neg h3]
          rw [show (apply_naked_pairs (init_candidates g)
                (find_naked_pairs (init_candidates g))).1 = init_candidates g from
              applyFindings_zero npTargets _ _ (Nat.eq_zero_of_not_pos h3)]
          rw [stepPT_eq]
          by_cases h4 :
              (apply_pointing_pairs (init_candidates g)
                (find_pointing_pairs (init_candidates g))).2 > 0
          · rw [if_pos h4, if_pos h4]
          · rw [if_neg h4, if_neg h4]
            rw [show (apply_pointing_pairs (init_candidates g)
                  (find_pointing_pairs (init_candidates g))).1 = init_candidates g from
                applyFindings_zero ppTargets _ _ (Nat.eq_zero_of_not_pos h4)]
            rw [stepXW_eq]
            by_cases h5 :
                (apply_x_wing (init_candidates g)
                  (find_x_wing (init_candidates g))).2 > 0
            · rw [if_pos h5, if_pos h5]
            · rw [if_neg h5, if_neg h5]
              rw [show (apply_x_wing (init_candidates g)
                    (find_x_wing (init_candidates g))).1 = init_candidates g from
                  applyFindings_zero xwTargets _ _ (Nat.eq_zero_of_not_pos h5)]
              rw [stepSF_eq]
              by_cases h6 :
                  (apply_swordfish (init_candidates g)
                    (find_swordfish (init_candidates g))).2 > 0
              · rw [if_pos h6, if_pos h6]
              · rw [if_neg h6, if_neg h6]
                rw [show (apply_swordfish (init_candidates g)
                      (find_swordfish (init_candidates g))).1 = init_candidates g from
                    applyFindings_zero sfTargets _ _ (Nat.eq_zero_of_not_pos h6)]
                rw [stepXY_eq]
      · rw [if_pos h2, if_pos h2]
    · rw [if_pos h1, if_pos h1]
  refine ⟨hstep, ?_⟩
  intro n s t hns
  rw [rateLoop_succ, if_neg (by rw [hns]; exact Bool.false_ne_true), hstep]

/-- C3 (witness): one iteration on the empty grid, which is not solved,
follows the spec-side dispatch. -/
theorem C3_dispatch_witness :
    is_solved emptyGrid = false ∧
    rateLoop 1 emptyGrid 0 [] =
      (match specStep emptyGrid with
       | .applied g2 tag => rateLoop 0 g2 (max 0 (TECHNIQUE_SCORES tag)) ([] ++ [tag])
       | .stuck => (emptyGrid, max 0 200, [] ++ ["requires_expert_technique"])) :=
  ⟨by decide, (C3_dispatch emptyGrid).2 0 0 [] (by decide)⟩
